import Mathlib

/-!
Verification development for the ext2fs repository (crate `fs`).

Shallow embedding conventions:
* Machine integers (`u8`/`u16`/`u32`/`u64`/`usize`) are modelled as `Nat`;
  wrap-around never occurs on the inputs exercised below, and subtraction
  sites that could underflow in Rust are noted where they matter.
* The block device (`block_device::read` / `block_device::modify` with a
  typed view) is modelled as functions from block id and slot to the value
  read through that view.
* A Rust function that can panic (a failed `assert!`, an `unreachable!`,
  an unimplemented body, or unbounded recursion) is modelled with an
  `Option` result, where `none` means "the call does not return normally".
* `VfsResult` is modelled as `Except` over the error-kind enum.
-/

namespace Ext2fs

/-- Constant `block::SIZE` from `fs/src/lib.rs`: 4096-byte blocks. -/
def block.SIZE : Nat := 4096

/-- Constant `block::BITS` from `fs/src/lib.rs`. -/
def block.BITS : Nat := block.SIZE * 8

/-- The block device, as seen through the two typed read views used in
`disk_inode.rs`: `words b i` is the `u32` at slot `i` of block `b` viewed
as an `IndirectBlock` (`[u32; 1024]`), and `bytes b i` is the byte at
offset `i` of block `b` viewed as a `DataBlock` (`[u8; 4096]`). -/
structure Disk where
  words : Nat → Nat → Nat
  bytes : Nat → Nat → Nat

/-- On-disk inode record (`disk_inode.rs`, struct `Ext2Inode`).
Fields not consulted by any claim (timestamps, flags, os-specific bytes,
generation, fragment address) are omitted; the pointer and size fields
follow the source layout. -/
structure Ext2Inode where
  type_perm : Nat
  uid : Nat
  size_low : Nat
  gid : Nat
  hard_links : Nat
  sectors_count : Nat
  direct_pointer : List Nat
  indirect_pointer : Nat
  doubly_indirect : Nat
  triply_indirect : Nat
  size_high : Nat

/-- Constant `Ext2Inode::DIRECT_COUNT`. -/
def Ext2Inode.DIRECT_COUNT : Nat := 12

/-- Constant `Ext2Inode::INDIRECT_COUNT = block::SIZE / 4`. -/
def Ext2Inode.INDIRECT_COUNT : Nat := block.SIZE / 4

/-- Constant `Ext2Inode::INDIRECT_BOUND`. -/
def Ext2Inode.INDIRECT_BOUND : Nat := Ext2Inode.DIRECT_COUNT + Ext2Inode.INDIRECT_COUNT

/-- Constant `Ext2Inode::DOUBLE_COUNT`. -/
def Ext2Inode.DOUBLE_COUNT : Nat := Ext2Inode.INDIRECT_COUNT * Ext2Inode.INDIRECT_COUNT

/-- Constant `Ext2Inode::DOUBLE_BOUND`. -/
def Ext2Inode.DOUBLE_BOUND : Nat := Ext2Inode.INDIRECT_BOUND + Ext2Inode.DOUBLE_COUNT

/-- `VfsFileType` (`vfs/meta.rs`). -/
inductive VfsFileType where
  | RegularFile
  | Directory
  | CharDev
  | BlockDev
  | FIFO
  | Socket
  | SymbolicLink
deriving DecidableEq

/-- `VfsFileType::is_file` (`vfs/meta.rs:15-17`). -/
def VfsFileType.is_file (ft : VfsFileType) : Bool := ft = VfsFileType.RegularFile

/-- Bitflags `contains` for a `TypePerm` mask:
`(self.bits & other.bits) == other.bits`. -/
def TypePerm.contains (tp flag : Nat) : Bool := (tp &&& flag) == flag

/-- `TypePerm::filetype` (`disk_inode.rs:221-233`): the first matching
type mask, tested with bitflags `contains` in the source's order; a
`type_perm` matching none of the masks is `unreachable!()` (panic,
modelled as `none`). -/
def TypePerm.filetype (tp : Nat) : Option VfsFileType :=
  if TypePerm.contains tp 0xC000 then some VfsFileType.Socket
  else if TypePerm.contains tp 0xA000 then some VfsFileType.SymbolicLink
  else if TypePerm.contains tp 0x8000 then some VfsFileType.RegularFile
  else if TypePerm.contains tp 0x6000 then some VfsFileType.BlockDev
  else if TypePerm.contains tp 0x4000 then some VfsFileType.Directory
  else if TypePerm.contains tp 0x2000 then some VfsFileType.CharDev
  else if TypePerm.contains tp 0x1000 then some VfsFileType.FIFO
  else none

/-- `Ext2Inode::filetype` (`disk_inode.rs:78-80`). -/
def Ext2Inode.filetype (ino : Ext2Inode) : Option VfsFileType :=
  TypePerm.filetype ino.type_perm

/-- `Ext2Inode::size` (`disk_inode.rs:86-91`): for a regular file, first
runs `assert_eq!(self.size_high, 0)` — a regular file with
`size_high ≠ 0` panics, as does an unrecognised type tag inside
`filetype()` — then returns `size_low`.  `none` is the panic. -/
def Ext2Inode.size (ino : Ext2Inode) : Option Nat :=
  match Ext2Inode.filetype ino with
  | none => none
  | some ft =>
    if ft.is_file then
      if ino.size_high = 0 then some ino.size_low else none
    else some ino.size_low

/-- `Ext2Inode::block_nth` (`disk_inode.rs:113-137`): translate a
file-block index to a disk block id.  Direct slots, then one indirect
block, then two reads through the doubly-indirect tree.  The final `else`
branch of the source is `panic!("where is the large block from ...")`;
it is modelled as `none`.  Note the source has no branch for the
triply-indirect range. -/
def Ext2Inode.block_nth (d : Disk) (ino : Ext2Inode) (inner_idx : Nat) : Option Nat :=
  if inner_idx < Ext2Inode.DIRECT_COUNT then
    some (ino.direct_pointer.getD inner_idx 0)
  else if inner_idx < Ext2Inode.INDIRECT_BOUND then
    some (d.words ino.indirect_pointer (inner_idx - Ext2Inode.DIRECT_COUNT))
  else if inner_idx < Ext2Inode.DOUBLE_BOUND then
    some (d.words
      (d.words ino.doubly_indirect
        ((inner_idx - Ext2Inode.INDIRECT_BOUND) / Ext2Inode.INDIRECT_COUNT))
      ((inner_idx - Ext2Inode.INDIRECT_BOUND) % Ext2Inode.INDIRECT_COUNT))
  else
    none

/-- Modelled from the spec (§3 "Addressing math", P = 1024): the
four-range decomposition the claim C1 states, including the
triple-indirect range `12+P+P² ≤ n < 12+P+P²+P³` with its analogous
three-level decomposition.  This follows the spec words, for comparison
with `Ext2Inode.block_nth` above. -/
def spec_block_for_file_index (d : Disk) (ino : Ext2Inode) (n : Nat) : Nat :=
  if n < 12 then
    ino.direct_pointer.getD n 0
  else if n < 12 + 1024 then
    d.words ino.indirect_pointer (n - 12)
  else if n < 12 + 1024 + 1024 * 1024 then
    d.words (d.words ino.doubly_indirect ((n - 12 - 1024) / 1024))
      ((n - 12 - 1024) % 1024)
  else
    d.words
      (d.words
        (d.words ino.triply_indirect
          ((n - 12 - 1024 - 1024 * 1024) / (1024 * 1024)))
        ((n - 12 - 1024 - 1024 * 1024) / 1024 % 1024))
      ((n - 12 - 1024 - 1024 * 1024) % 1024)

/-- Claim C1 (amended): for every file-block index `n` below
`12 + P + P²` the translation `block_nth` applies exactly the claimed
decomposition (direct slot, indirect slot `n−12`, double-indirect
outer/inner slots), reading at most two indirect blocks; but for every
index in the triple-indirect range `12+P+P² ≤ n` the source panics
("where is the large block from") instead of applying the claimed
three-level decomposition. -/
theorem C1_block_nth_decomposition (d : Disk) (ino : Ext2Inode) (n : Nat) :
    (n < 12 + 1024 + 1024 * 1024 →
      Ext2Inode.block_nth d ino n = some (spec_block_for_file_index d ino n))
    ∧ (12 + 1024 + 1024 * 1024 ≤ n → Ext2Inode.block_nth d ino n = none) := by
  unfold Ext2Inode.block_nth spec_block_for_file_index
  simp only [Ext2Inode.DIRECT_COUNT, Ext2Inode.INDIRECT_COUNT, Ext2Inode.INDIRECT_BOUND,
    Ext2Inode.DOUBLE_COUNT, Ext2Inode.DOUBLE_BOUND, block.SIZE, Nat.sub_sub]
  norm_num
  constructor
  · intro hlt
    split_ifs <;> rfl
  · intro hge
    split_ifs <;> first | rfl | omega

/-- Concrete device for the C1 counterexample: the word read at slot `i`
of block `b` is `b + i`, so every level of the claimed triple-indirect
decomposition is well defined. -/
def d1 : Disk := ⟨fun b i => b + i, fun _ _ => 0⟩

/-- Concrete inode for the C1 counterexample, with all four pointer
levels populated. -/
def ino1 : Ext2Inode :=
  { type_perm := 0x8000, uid := 0, size_low := 0, gid := 0, hard_links := 1,
    sectors_count := 0,
    direct_pointer := [10, 11, 12, 13, 14, 15, 16, 17, 18, 19, 20, 21],
    indirect_pointer := 100, doubly_indirect := 200, triply_indirect := 300,
    size_high := 0 }

/-- Claim C1 counterexample: at the first triple-indirect index
`n = 12 + P + P² = 1049612` the source returns no translation (it
panics), not the three-level decomposition the claim requires. -/
theorem C1_cex :
    Ext2Inode.block_nth d1 ino1 1049612 = none
    ∧ Ext2Inode.block_nth d1 ino1 1049612
        ≠ some (spec_block_for_file_index d1 ino1 1049612) := by
  constructor
  · rfl
  · decide

/-! ## Permissions (claim C9) -/

/-- `VfsPermission` (`vfs/meta.rs`). -/
structure VfsPermission where
  read : Bool
  write : Bool
  execute : Bool
deriving DecidableEq

/-- `VfsPermissions` (`vfs/meta.rs`). -/
structure VfsPermissions where
  user : VfsPermission
  group : VfsPermission
  others : VfsPermission
deriving DecidableEq

/-- `impl From<u8> for VfsPermission` (`vfs/meta.rs:60-68`): bit 0x1 is
read, 0x2 write, 0x4 execute. -/
def VfsPermission.from_u8 (value : Nat) : VfsPermission :=
  { read := (value &&& 0x1) != 0
    write := (value &&& 0x2) != 0
    execute := (value &&& 0x4) != 0 }

/-- `TypePerm::permissions` (`disk_inode.rs:235-267`): builds the three
`u8` triples with read = 0b100, write = 0b010, execute = 0b001, then
converts each through `From<u8>` (`.into()`). -/
def TypePerm.permissions (tp : Nat) : VfsPermissions :=
  let user0 : Nat := 0
  let user1 := if TypePerm.contains tp 0x100 then user0 ||| 0b100 else user0
  let user2 := if TypePerm.contains tp 0x080 then user1 ||| 0b010 else user1
  let user3 := if TypePerm.contains tp 0x040 then user2 ||| 0b001 else user2
  let group0 : Nat := 0
  let group1 := if TypePerm.contains tp 0x020 then group0 ||| 0b100 else group0
  let group2 := if TypePerm.contains tp 0x010 then group1 ||| 0b010 else group1
  let group3 := if TypePerm.contains tp 0x008 then group2 ||| 0b001 else group2
  let other0 : Nat := 0
  let other1 := if TypePerm.contains tp 0x004 then other0 ||| 0b100 else other0
  let other2 := if TypePerm.contains tp 0x002 then other1 ||| 0b010 else other1
  let other3 := if TypePerm.contains tp 0x001 then other2 ||| 0b001 else other2
  ⟨VfsPermission.from_u8 user3, VfsPermission.from_u8 group3, VfsPermission.from_u8 other3⟩

/-- Claim C9 is false on the code: for `type_perm = 0x100` (only the
`U_READ` bit set) the reported user permission has `read = false` and
`execute = true` — `TypePerm::permissions` encodes read as `0b100` while
`From<u8>` decodes bit `0x1` as read, so read and execute are swapped on
the way through.  The claim requires `read = true`, `execute = false`. -/
theorem C9_permissions_swapped :
    TypePerm.permissions 0x100
      = ⟨⟨false, false, true⟩, ⟨false, false, false⟩, ⟨false, false, false⟩⟩
    ∧ TypePerm.permissions 0x040
      = ⟨⟨true, false, false⟩, ⟨false, false, false⟩, ⟨false, false, false⟩⟩ := by
  constructor <;> rfl

/-! ## Error kinds -/

/-- Error kinds: `IOErrorKind` from `vfs/error.rs` plus the
`NoFreeBlocks` / `NoFreeInodes` kinds the allocator constructs
(`allocator.rs:53,74`) and `InvalidPath` from `VfsErrorKind`; the one
error value a model below produces is always one of these. -/
inductive VfsErr where
  | NotFound
  | PermissionDenied
  | AlreadyExists
  | NotADirectory
  | NotAFile
  | NotASymlink
  | DirectoryNotEmpty
  | IsADirectory
  | TooLargeFile
  | TooLongFileName
  | TooManyLinks
  | InvalidFilename
  | NoFreeBlocks
  | NoFreeInodes
  | InvalidPath
deriving DecidableEq

/-! ## set_len (claim C5)

`Inode::increase_to` / `Inode::decrease_to` (`inode.rs:149-176`) only
consult the current size and the requested size before they panic, so
they are modelled on those two numbers. -/

/-- `Inode::blocks_needed` (`inode.rs:141-143`): the body is
unimplemented (`todo!()`), so every call panics. -/
def Inode.blocks_needed : Option Nat := none

/-- `Inode::blocks_freed` (`inode.rs:145-147`): the body is
unimplemented (`todo!()`), so every call panics. -/
def Inode.blocks_freed : Option Nat := none

/-- `Inode::increase_to` (`inode.rs:149-162`): first runs
`assert!(self.size() > new_size)` — inverted for a grow, so the assert
fails (panic, `none`) whenever `size ≤ new_size`; when the assert would
pass, the next statement calls the unimplemented `blocks_needed`. -/
def Inode.increase_to (size new_size : Nat) : Option (Except VfsErr Unit) :=
  if new_size < size then
    match Inode.blocks_needed with
    | none => none
    | some _ => none
  else
    none

/-- `Inode::decrease_to` (`inode.rs:164-176`): first runs
`assert!(self.size() < new_size)` — inverted for a shrink — and then
calls the unimplemented `blocks_freed`. -/
def Inode.decrease_to (size new_size : Nat) : Option (Except VfsErr Unit) :=
  if size < new_size then
    match Inode.blocks_freed with
    | none => none
    | some _ => none
  else
    none

/-- `Inode::set_len` (`inode.rs:188-195`): compares the current size to
the requested length and dispatches to `increase_to` / `decrease_to`. -/
def Inode.set_len (size len : Nat) : Option (Except VfsErr Unit) :=
  if size < len then Inode.increase_to size len
  else if size = len then some (Except.ok ())
  else Inode.decrease_to size len

/-- Claim C5 is false on the code: `set_len` on an ordinary file panics
for every size change.  Growing (current size 0, `set_len 10`) hits the
inverted `assert!(size > new_size)` in `increase_to`; shrinking (current
size 10, `set_len 3`) hits the inverted `assert!(size < new_size)` in
`decrease_to`; even if the asserts were right, `blocks_needed` and
`blocks_freed` are unimplemented.  Only the no-change case returns. -/
theorem C5_set_len_panics :
    Inode.set_len 0 10 = none
    ∧ Inode.set_len 10 3 = none
    ∧ Inode.set_len 7 7 = some (Except.ok ()) :=
  ⟨rfl, rfl, rfl⟩

/-! ## Allocator (claims C2 and C8) -/

/-- Superblock counters.  `superblock.rs` is not under `src/`; the
fields are the ones the allocator reads and writes
(`allocator.rs:26-49`) and §3 of the spec lists. -/
structure Superblock where
  free_blocks_count : Nat
  r_blocks_count : Nat
  free_inodes_count : Nat
deriving DecidableEq

/-- `Ext2BlockGroupDesc` (`blockgroup.rs:16-33`) together with the
contents of its block bitmap: `block_bitmap` lists the 64-bit words of
the bitmap block (the `BitmapBlock` view `[u64; 512]`), in order. -/
structure Ext2BlockGroupDesc where
  free_blocks_count : Nat
  free_inodes_count : Nat
  dirs_count : Nat
  block_bitmap : List Nat
deriving DecidableEq

/-- Constant `UNIT_WIDTH` (`blockgroup.rs:35`). -/
def UNIT_WIDTH : Nat := 64

/-- The clear bits of one bitmap word, in ascending position order: the
order the `trailing_zeros`-on-NOT loop of `alloc_blocks`
(`blockgroup.rs:98-112`) visits them. -/
def freeBitsAsc (w : Nat) : List Nat :=
  (List.range UNIT_WIDTH).filter (fun i => ¬ w.testBit i)

/-- Inner `while` of `alloc_blocks`: take clear bits of word `w` (their
ascending positions given by `bits`), setting each taken bit and pushing
`pos * UNIT_WIDTH + inner_pos`, until the vector holds `num` ids.
Returns the ids so far, the updated word, and whether `num` was
reached (the early `return`). -/
def allocBitsInWord (num pos : Nat) : List Nat → Nat → List Nat → List Nat × Nat × Bool
  | [], w, acc => (acc, w, false)
  | i :: rest, w, acc =>
    let w2 := w ||| (1 <<< i)
    let acc2 := acc ++ [pos * UNIT_WIDTH + i]
    if acc2.length = num then (acc2, w2, true)
    else allocBitsInWord num pos rest w2 acc2

/-- Outer `for` of `alloc_blocks` over the bitmap words (`pos` is the
word index).  Returns the allocated ids and the updated words. -/
def allocBlocksScan (num : Nat) : Nat → List Nat → List Nat → List Nat × List Nat
  | _, [], acc => (acc, [])
  | pos, w :: ws, acc =>
    match allocBitsInWord num pos (freeBitsAsc w) w acc with
    | (acc2, w2, true) => (acc2, w2 :: ws)
    | (acc2, w2, false) =>
      let r := allocBlocksScan num (pos + 1) ws acc2
      (r.1, w2 :: r.2)

/-- `Ext2BlockGroupDesc::alloc_blocks` (`blockgroup.rs:90-119`): scan
the group's block bitmap for up to `num` clear bits, set them, decrement
`free_blocks_count` once per allocation, and return the ids pushed as
`pos * UNIT_WIDTH + inner_pos` — the group-local indices, with no
group-base translation. -/
def Ext2BlockGroupDesc.alloc_blocks (bg : Ext2BlockGroupDesc) (num : Nat) :
    List Nat × Ext2BlockGroupDesc :=
  let r := allocBlocksScan num 0 bg.block_bitmap []
  (r.1, { bg with
            block_bitmap := r.2
            free_blocks_count := bg.free_blocks_count - r.1.length })

/-- `Ext2BlockGroupDesc::alloc_inode` (`blockgroup.rs:80-82`): the body
is unimplemented (`todo!()`), so every call panics. -/
def Ext2BlockGroupDesc.alloc_inode (_bg : Ext2BlockGroupDesc) (_is_dir : Bool) :
    Option (Nat × Ext2BlockGroupDesc) :=
  none

/-- The allocator: superblock plus the group-descriptor array
(`allocator.rs:8-15`, with the counters it actually touches). -/
structure Ext2Allocator where
  superblock : Superblock
  blockgroups : List Ext2BlockGroupDesc
deriving DecidableEq

/-- `Ext2Allocator::free_blocks` (`allocator.rs:26-29`):
`free_blocks_count - r_blocks_count`. -/
def Ext2Allocator.free_blocks (a : Ext2Allocator) : Nat :=
  a.superblock.free_blocks_count - a.superblock.r_blocks_count

/-- The group loop of `alloc_data` (`allocator.rs:80-89`): ask each
group for the remaining deficit, concatenate, stop once `unmet == 0`.
Returns the ids, the updated groups, and the final `unmet`. -/
def allocDataLoop : Nat → List Ext2BlockGroupDesc →
    List Nat × List Ext2BlockGroupDesc × Nat
  | unmet, [] => ([], [], unmet)
  | unmet, bg :: bgs =>
    let r := bg.alloc_blocks unmet
    let unmet2 := unmet - r.1.length
    if unmet2 = 0 then (r.1, r.2 :: bgs, 0)
    else
      let rest := allocDataLoop unmet2 bgs
      (r.1 ++ rest.1, r.2 :: rest.2.1, rest.2.2)

/-- `Ext2Allocator::alloc_data` (`allocator.rs:72-96`): admission check
`needed > free_blocks` fails with `NoFreeBlocks`; otherwise run the
group loop, decrement the superblock's free-block count by `needed`, and
`assert_eq!(unmet, 0)` — a failed assert (panic) is `none`. -/
def Ext2Allocator.alloc_data (a : Ext2Allocator) (needed : Nat) :
    Option (Except VfsErr (List Nat × Ext2Allocator)) :=
  if needed > a.free_blocks then
    some (Except.error VfsErr.NoFreeBlocks)
  else
    let r := allocDataLoop needed a.blockgroups
    let a2 : Ext2Allocator :=
      { superblock := { a.superblock with
          free_blocks_count := a.superblock.free_blocks_count - needed }
        blockgroups := r.2.1 }
    if r.2.2 = 0 then some (Except.ok (r.1, a2)) else none

/-- Concrete allocator state for claim C2: group 0 has a fully used
bitmap word (no free block), group 1 has exactly bit 0 of its first word
clear. -/
def st2 : Ext2Allocator :=
  { superblock := ⟨64, 0, 5⟩
    blockgroups :=
      [⟨0, 0, 0, [18446744073709551615]⟩,
       ⟨64, 0, 0, [18446744073709551614]⟩] }

/-- Claim C2 is false on the code: with group 0 exhausted,
`alloc_data(1)` allocates local bit 0 of group 1 and returns the id `0`
— the group-local bitmap index, not `group_base + local_index` (the base
of group 1 is `blocks_per_group ≥ 32768`, never `0`).  `dealloc_data`
partitions ids by `id / blocks_per_group`, so this block could never be
freed back to group 1.  The admission check and the counter decrement do
behave as claimed. -/
theorem C2_alloc_data_returns_local_index :
    Ext2Allocator.alloc_data st2 1
      = some (Except.ok ([0],
          { superblock := ⟨63, 0, 5⟩
            blockgroups :=
              [⟨0, 0, 0, [18446744073709551615]⟩,
               ⟨63, 0, 0, [18446744073709551615]⟩] }))
    ∧ (0 : Nat) ≠ 32768 + 0 :=
  ⟨rfl, by decide⟩

/-- The group loop of `alloc_inode` (`allocator.rs:58-66`): skip groups
with `free_blocks_count == 0` (sic — the free-BLOCK counter, not the
free-inode counter), ask the first remaining group to allocate (which
panics, `todo!()`), and fall through to `unreachable!()` (panic) when no
group qualifies. -/
def allocInodeLoop (is_dir : Bool) : List Ext2BlockGroupDesc → Option (Except VfsErr Nat)
  | [] => none
  | bg :: bgs =>
    if bg.free_blocks_count = 0 then allocInodeLoop is_dir bgs
    else
      match bg.alloc_inode is_dir with
      | none => none
      | some r => some (Except.ok r.1)

/-- `Ext2Allocator::alloc_inode` (`allocator.rs:51-67`): fails with
`NoFreeInodes` when the superblock's free-inode count is zero, otherwise
decrements it and runs the group loop.  (The decrement is not
observable here: every non-error path of the loop panics before
returning a state.) -/
def Ext2Allocator.alloc_inode (a : Ext2Allocator) (is_dir : Bool) :
    Option (Except VfsErr Nat) :=
  if a.superblock.free_inodes_count = 0 then
    some (Except.error VfsErr.NoFreeInodes)
  else
    allocInodeLoop is_dir a.blockgroups

/-- Concrete allocator state for claim C8: one free inode globally;
group 0 has a spare inode (`free_inodes_count = 1`) but no free block;
group 1 has free blocks but no spare inode. -/
def st8 : Ext2Allocator :=
  { superblock := ⟨10, 0, 1⟩
    blockgroups := [⟨0, 1, 0, []⟩, ⟨3, 0, 0, []⟩] }

/-- Claim C8 is false on the code: with a spare inode available the call
panics instead of returning a global inode id.  The group loop skips
group 0 — the test is `free_blocks_count == 0`, not the claimed
`free_inodes_count > 0` — and then hands group 1 to
`Ext2BlockGroupDesc::alloc_inode`, whose body is `todo!()`.  Only the
`NoFreeInodes` branch behaves as claimed. -/
theorem C8_alloc_inode_panics :
    Ext2Allocator.alloc_inode st8 false = none
    ∧ Ext2Allocator.alloc_inode
        { st8 with superblock := ⟨10, 0, 0⟩ } false
        = some (Except.error VfsErr.NoFreeInodes) :=
  ⟨rfl, rfl⟩

/-! ## Directory codec (claim C6)

A directory buffer is modelled as the list of records `Dir::split`
parses out of it (each record also carries its name bytes as a
`String`); offsets are the running sums of `record_len`. -/

/-- The `EXT2_FT_*` codes `Ext2DirEntry::build_raw` stores
(`dir.rs:62-70`). -/
def VfsFileType.ext2_code : VfsFileType → Nat
  | .RegularFile => 1
  | .Directory => 2
  | .CharDev => 3
  | .BlockDev => 4
  | .FIFO => 5
  | .Socket => 6
  | .SymbolicLink => 7

/-- One directory record (`dir.rs`, struct `Ext2DirEntry` plus its
trailing name bytes). -/
structure Ext2DirEntry where
  inode_id : Nat
  record_len : Nat
  name_len : Nat
  filetype : Nat
  name : String
deriving DecidableEq

/-- Macro `ceil!(index, 4)` from `util.rs`: round up to a multiple of 4. -/
def ceil4 (index : Nat) : Nat := (index + 4 - 1) / 4 * 4

/-- Constant `Ext2DirEntry::BARE_LEN` (`dir.rs:49`). -/
def Ext2DirEntry.BARE_LEN : Nat := 8

/-- `Ext2DirEntry::regular_len` (`dir.rs:79-82`):
`ceil!(BARE_LEN + name_len, 4)`. -/
def Ext2DirEntry.regular_len (e : Ext2DirEntry) : Nat :=
  ceil4 (Ext2DirEntry.BARE_LEN + e.name_len)

/-- `Ext2DirEntry::has_free` (`dir.rs:90-93`):
`record_len - regular_len ≥ needed` (the subtraction cannot underflow on
well-formed records, where `regular_len ≤ record_len`). -/
def Ext2DirEntry.has_free (e : Ext2DirEntry) (needed : Nat) : Bool :=
  needed ≤ e.record_len - e.regular_len

/-- `Ext2DirEntry::build_raw` (`dir.rs:51-76`): a fresh record for
`filename`, with `record_len` initially `ceil!(8 + name_len, 4)`. -/
def Ext2DirEntry.build_raw (filename : String) (inode_id : Nat)
    (filetype : VfsFileType) : Ext2DirEntry :=
  { inode_id := inode_id
    record_len := ceil4 (Ext2DirEntry.BARE_LEN + filename.length)
    name_len := filename.length
    filetype := filetype.ext2_code
    name := filename }

/-- `Dir::insert_entry` (`dir.rs:255-266`): scan the records; at the
first one whose slack fits the new record's `regular_len`, shrink it to
its `regular_len` (`rec_narrow`), give the new record the freed slack as
its `record_len` (`rec_expand`), and place the new record right after
the shrunk one.  If no record fits, the loop ends and the buffer is left
unchanged — there is no directory-extension path. -/
def Dir.insert_entry (filename : String) (inode_id : Nat)
    (file_type : VfsFileType) : List Ext2DirEntry → List Ext2DirEntry
  | [] => []
  | e :: rest =>
    if e.has_free (Ext2DirEntry.build_raw filename inode_id file_type).regular_len then
      { e with record_len := e.regular_len }
        :: { Ext2DirEntry.build_raw filename inode_id file_type with
              record_len := e.record_len - e.regular_len }
        :: rest
    else
      e :: Dir.insert_entry filename inode_id file_type rest

/-- Sum of the `record_len` strides of a record list: the byte size of
the directory buffer they parse from. -/
def recordLenSum (records : List Ext2DirEntry) : Nat :=
  (records.map (fun e => e.record_len)).sum

/-- Claim C6, helper: the two record-level invariants of a parsed
directory buffer: every `record_len` is a multiple of 4 (asserted by
`Ext2DirEntry::record_len()`) and covers the record's own
`regular_len`. -/
def DirRecordsWF (records : List Ext2DirEntry) : Prop :=
  ∀ e ∈ records, e.record_len % 4 = 0 ∧ Ext2DirEntry.regular_len e ≤ e.record_len

instance (records : List Ext2DirEntry) : Decidable (DirRecordsWF records) := by
  unfold DirRecordsWF
  infer_instance

theorem ceil4_mod (x : Nat) : ceil4 x % 4 = 0 := by
  unfold ceil4
  omega

theorem build_raw_regular_len (filename : String) (inode_id : Nat)
    (file_type : VfsFileType) :
    (Ext2DirEntry.build_raw filename inode_id file_type).regular_len
      = ceil4 (8 + filename.length) := rfl

theorem has_free_iff (e : Ext2DirEntry) (needed : Nat) :
    e.has_free needed = true ↔ needed ≤ e.record_len - e.regular_len := by
  unfold Ext2DirEntry.has_free
  exact decide_eq_true_iff

theorem insert_entry_cons_fit (filename : String) (inode_id : Nat)
    (file_type : VfsFileType) (e : Ext2DirEntry) (rest : List Ext2DirEntry)
    (hfit : e.has_free (ceil4 (8 + filename.length)) = true) :
    Dir.insert_entry filename inode_id file_type (e :: rest)
      = { e with record_len := e.regular_len }
        :: { Ext2DirEntry.build_raw filename inode_id file_type with
              record_len := e.record_len - e.regular_len }
        :: rest := by
  simp only [Dir.insert_entry]
  rw [build_raw_regular_len, if_pos hfit]

theorem insert_entry_cons_nofit (filename : String) (inode_id : Nat)
    (file_type : VfsFileType) (e : Ext2DirEntry) (rest : List Ext2DirEntry)
    (hnfit : e.has_free (ceil4 (8 + filename.length)) = false) :
    Dir.insert_entry filename inode_id file_type (e :: rest)
      = e :: Dir.insert_entry filename inode_id file_type rest := by
  simp only [Dir.insert_entry]
  rw [build_raw_regular_len, if_neg (by simp [hnfit])]

/-- Claim C6 (amended): `insert` splits the first record whose slack is
at least `ceil(8 + name_len, 4)` exactly as claimed — the found record's
`record_len` shrinks to its regular length and the new record takes the
reclaimed slack as its `record_len` — and every insert preserves the
per-block invariants (each `record_len` a multiple of 4 and the
`record_len` sum unchanged, hence still 4096 per block).  But when no
record fits, the directory is NOT extended by one block: the buffer is
returned unchanged and the entry is silently dropped. -/
theorem C6_insert_entry (records : List Ext2DirEntry) (filename : String)
    (inode_id : Nat) (file_type : VfsFileType)
    (hwf : DirRecordsWF records) :
    recordLenSum (Dir.insert_entry filename inode_id file_type records)
        = recordLenSum records
    ∧ DirRecordsWF (Dir.insert_entry filename inode_id file_type records)
    ∧ ((∀ e ∈ records,
          Ext2DirEntry.has_free e (ceil4 (8 + filename.length)) = false) →
        Dir.insert_entry filename inode_id file_type records = records)
    ∧ (∀ pre e post,
        records = pre ++ e :: post →
        (∀ x ∈ pre,
          Ext2DirEntry.has_free x (ceil4 (8 + filename.length)) = false) →
        Ext2DirEntry.has_free e (ceil4 (8 + filename.length)) = true →
        Dir.insert_entry filename inode_id file_type records
          = pre
            ++ { e with record_len := e.regular_len }
            :: { Ext2DirEntry.build_raw filename inode_id file_type with
                  record_len := e.record_len - e.regular_len }
            :: post) := by
  induction records with
  | nil =>
    refine ⟨rfl, hwf, fun _ => rfl, ?_⟩
    intro pre e post hsplit
    exact absurd hsplit (by simp)
  | cons a rest ih =>
    have hwa := hwf a (List.mem_cons_self a rest)
    have hwrest : DirRecordsWF rest := fun e he => hwf e (List.mem_cons_of_mem a he)
    obtain ⟨ihsum, ihwf, ihnone, ihsplit⟩ := ih hwrest
    by_cases hfit : Ext2DirEntry.has_free a (ceil4 (8 + filename.length)) = true
    · have hstep := insert_entry_cons_fit filename inode_id file_type a rest hfit
      have hslack : ceil4 (8 + filename.length)
          ≤ a.record_len - a.regular_len := (has_free_iff a _).mp hfit
      have hreg4 : Ext2DirEntry.regular_len a % 4 = 0 := ceil4_mod _
      refine ⟨?_, ?_, ?_, ?_⟩
      · rw [hstep]
        simp only [recordLenSum, List.map_cons, List.sum_cons]
        have := hwa.2
        omega
      · rw [hstep]
        intro x hx
        simp only [List.mem_cons] at hx
        rcases hx with rfl | rfl | hx
        · exact ⟨hreg4, Nat.le_refl _⟩
        · refine ⟨?_, ?_⟩
          · show (a.record_len - a.regular_len) % 4 = 0
            have h1 := hwa.1
            have h2 := hwa.2
            omega
          · rw [show Ext2DirEntry.regular_len
                { Ext2DirEntry.build_raw filename inode_id file_type with
                    record_len := a.record_len - a.regular_len }
                = ceil4 (8 + filename.length) from rfl]
            exact hslack
        · exact hwrest x hx
      · intro hall
        have := hall a (List.mem_cons_self a rest)
        rw [this] at hfit
        exact absurd hfit (by simp)
      · intro pre e post hsplit hprefit hefit
        cases pre with
        | nil =>
          simp only [List.nil_append, List.cons.injEq] at hsplit
          obtain ⟨rfl, rfl⟩ := hsplit
          simpa using hstep
        | cons p ps =>
          simp only [List.cons_append, List.cons.injEq] at hsplit
          obtain ⟨rfl, _⟩ := hsplit
          have := hprefit a (List.mem_cons_self a ps)
          rw [this] at hfit
          exact absurd hfit (by simp)
    · have hnfit : Ext2DirEntry.has_free a (ceil4 (8 + filename.length)) = false := by
        simpa using hfit
      have hstep := insert_entry_cons_nofit filename inode_id file_type a rest hnfit
      refine ⟨?_, ?_, ?_, ?_⟩
      · rw [hstep]
        simp only [recordLenSum, List.map_cons, List.sum_cons] at ihsum ⊢
        omega
      · rw [hstep]
        intro x hx
        simp only [List.mem_cons] at hx
        rcases hx with rfl | hx
        · exact hwa
        · exact ihwf x hx
      · intro hall
        rw [hstep, ihnone (fun e he => hall e (List.mem_cons_of_mem a he))]
      · intro pre e post hsplit hprefit hefit
        cases pre with
        | nil =>
          simp only [List.nil_append, List.cons.injEq] at hsplit
          obtain ⟨rfl, _⟩ := hsplit
          rw [hefit] at hnfit
          exact absurd hnfit (by simp)
        | cons p ps =>
          simp only [List.cons_append, List.cons.injEq] at hsplit
          obtain ⟨rfl, hrp⟩ := hsplit
          rw [hstep,
            ihsplit ps e post hrp (fun x hx => hprefit x (List.mem_cons_of_mem _ hx)) hefit]
          simp

/-- Witness directory for claim C6: a root-like single record spanning
the whole 4096-byte block. -/
def dir0 : List Ext2DirEntry := [⟨2, 4096, 1, 2, "."⟩]

/-- Claim C6 witness: inserting a name into `dir0` (whose single record
has ample slack) preserves the block's `record_len` sum. -/
theorem C6_insert_entry_witness :
    recordLenSum (Dir.insert_entry "ab" 7 VfsFileType.RegularFile dir0)
      = recordLenSum dir0 :=
  (C6_insert_entry dir0 "ab" 7 VfsFileType.RegularFile (by decide)).1

/-- Counterexample directory for claim C6: one 4096-byte block packed
with 340 twelve-byte records and one sixteen-byte record, every one
with zero slack (`record_len = regular_len`, sum 4096). -/
def fullDir : List Ext2DirEntry :=
  List.replicate 340 ⟨5, 12, 4, 1, "aaaa"⟩ ++ [⟨6, 16, 8, 1, "bbbbbbbb"⟩]

set_option maxRecDepth 4000 in
/-- Claim C6 counterexample: on a directory block with no reusable
slack, `insert` returns the buffer unchanged — no record for the new
name is laid out and the directory is not extended by one block, where
the claim requires a new record with `record_len = 4096` in a fresh
block. -/
theorem C6_insert_entry_cex :
    Dir.insert_entry "abc" 9 VfsFileType.RegularFile fullDir = fullDir
    ∧ recordLenSum fullDir = 4096
    ∧ fullDir.all (fun e => e.name != "abc") = true := by
  refine ⟨by decide, by decide, by decide⟩

/-! ## Path walker (claims C4, C10, C7)

The walker (`dir.rs:292-362`) touches inodes only through their id, file
type, directory entries and symlink target, so the filesystem is
modelled as a map from inode id to that data.  `walk` and `goto_last`
recurse into each other with no step limit in the source; the model
indexes each `walk` invocation with fuel, and `none` means the call does
not return normally within that budget (for any fuel: not at all). -/

/-- What the walker reads from one on-disk inode: its file type, its
directory entries as `(name, inode_id)` pairs (`Dir::entries`), and —
for a symlink — the target of `Inode::symlink_target` already parsed by
`VfsPath::from` into an is-absolute flag plus components. -/
structure SimInode where
  ftype : VfsFileType
  entries : List (String × Nat)
  link_from_root : Bool
  link_comps : List String

/-- The filesystem contents the walker consults: inode id to data. -/
structure SimFS where
  inodes : Nat → SimInode

/-- The in-memory `Inode` handle (`inode.rs:19-29`), reduced to the
fields the walker uses: inode id and the optional parent id. -/
structure WInode where
  inode_id : Nat
  parent_id : Option Nat
deriving DecidableEq

/-- `Ext2Layout::root_inode`: `inode_nth(2).with_parent(2)`. -/
def rootW : WInode := ⟨2, some 2⟩

/-- `Inode::parent_inode` (`inode.rs:77-80`): `parent_id.unwrap()`
(panic when absent, hence `Option`), then `inode_nth` — which sets no
parent on the returned handle. -/
def parent_inode (w : WInode) : Option WInode :=
  w.parent_id.map (fun p => ⟨p, none⟩)

/-- `Inode::find_single` (`dir.rs:346-362`): the unique entry with the
given name; two or more matches panic (outer `none`), no match is an
inner `none`. -/
def find_single (entries : List (String × Nat)) (filename : String) :
    Option (Option Nat) :=
  match entries.filter (fun e => e.1 == filename) with
  | [] => some none
  | [e] => some (some e.2)
  | _ :: _ :: _ => none

/-- Result of one walker call: `none` when the call does not return
(panic or exhausted fuel), otherwise the `VfsResult`. -/
def WalkRes : Type := Option (Except VfsErr WInode)

/-- One loop iteration of `Inode::goto_last` (`dir.rs:303-332`) plus the
iteration over the remaining components, parameterised by the behaviour
`w` of `Inode::walk` at the current fuel: resolve the current inode if
it is a symlink (restarting from the root when the target is absolute,
else from the parent), then require a directory, then look the component
up and continue with the child bound to `self`'s id
(`child_inode`, `dir.rs:334-344`). -/
def gotoLastAux (fs : SimFS) (w : WInode → List String → WalkRes) (self : WInode) :
    WInode → List String → WalkRes
  | current, [] => some (Except.ok current)
  | current, next :: rest =>
    let step : WalkRes :=
      if (fs.inodes current.inode_id).ftype = VfsFileType.SymbolicLink then
        match parent_inode current with
        | none => none
        | some parent =>
          if (fs.inodes current.inode_id).link_from_root then
            w rootW (fs.inodes current.inode_id).link_comps
          else
            w parent (fs.inodes current.inode_id).link_comps
      else some (Except.ok current)
    match step with
    | none => none
    | some (Except.error e) => some (Except.error e)
    | some (Except.ok cur2) =>
      if (fs.inodes cur2.inode_id).ftype = VfsFileType.Directory then
        match find_single (fs.inodes cur2.inode_id).entries next with
        | none => none
        | some none => some (Except.error VfsErr.NotFound)
        | some (some child_id) =>
          gotoLastAux fs w self ⟨child_id, some self.inode_id⟩ rest
      else
        some (Except.error VfsErr.NotADirectory)

/-- `Inode::walk` (`dir.rs:293-301`): run `goto_last` from `self`; if
the final inode is a symlink, read its target and walk it again from the
symlink's parent (note: from the parent regardless of the target's
is-absolute flag, which this final step never consults).  Fuel counts
nested `walk` invocations; `fuel = 0` is an exhausted budget. -/
def walkF (fs : SimFS) (fuel : Nat) : WInode → List String → WalkRes :=
  Nat.rec (motive := fun _ => WInode → List String → WalkRes)
    (fun _ _ => none)
    (fun _f ih self path =>
      match gotoLastAux fs ih self self path with
      | none => none
      | some (Except.error e) => some (Except.error e)
      | some (Except.ok last) =>
        if (fs.inodes last.inode_id).ftype = VfsFileType.SymbolicLink then
          match parent_inode last with
          | none => none
          | some parent_last => ih parent_last (fs.inodes last.inode_id).link_comps
        else
          some (Except.ok last))
    fuel

/-- Concrete filesystem for claim C4: the root directory (inode 2)
contains one entry `s` naming inode 3, and inode 3 is a symlink whose
target is the absolute path `/s` — a one-link cycle. -/
def cycleFS : SimFS :=
  ⟨fun i =>
    if i = 2 then ⟨VfsFileType.Directory, [("s", 3)], true, []⟩
    else if i = 3 then ⟨VfsFileType.SymbolicLink, [], true, ["s"]⟩
    else ⟨VfsFileType.RegularFile, [], true, []⟩⟩

theorem C4_cycle_step (f : Nat) :
    walkF cycleFS (f + 1) ⟨2, none⟩ ["s"] = walkF cycleFS f ⟨2, none⟩ ["s"] := rfl

theorem C4_cycle_aux : ∀ f : Nat, walkF cycleFS f ⟨2, none⟩ ["s"] = none := by
  intro f
  induction f with
  | zero => rfl
  | succ f ih => rw [C4_cycle_step, ih]

/-- Claim C4 is false on the code: `walk` has no symlink step limit —
`TooManyLinks` is never constructed anywhere in the crate — and on the
one-link cycle `/s -> /s` every finite recursion budget is exhausted:
resolving `s` re-enters `walk` on the same inode and path forever
(in the program, unbounded recursion), instead of failing with
`TooManyLinks` after a fixed number of steps. -/
theorem C4_walk_cycle_diverges :
    ∀ fuel : Nat, walkF cycleFS fuel rootW ["s"] = none := by
  intro fuel
  cases fuel with
  | zero => rfl
  | succ f =>
    have h : walkF cycleFS (f + 1) rootW ["s"] = walkF cycleFS f ⟨2, none⟩ ["s"] := rfl
    rw [h, C4_cycle_aux]

/-! ## exists (claim C10) -/

/-- `Ext2FileSystem::exists` (`filesystem.rs:72-76`): walk the path from
the root inode and return `Ok(target.is_ok())`. -/
def fs_exists (fs : SimFS) (path : List String) (fuel : Nat) :
    Option (Except VfsErr Bool) :=
  match walkF fs fuel rootW path with
  | none => none
  | some (Except.ok _) => some (Except.ok true)
  | some (Except.error _) => some (Except.ok false)

/-- Claim C10: whenever the walk returns at all, `exists` never returns
an error: it yields `Ok(true)` exactly when full resolution succeeded
and `Ok(false)` exactly when resolution failed with any error
(`NotFound`, `NotADirectory`, a bad symlink, ...), swallowing the
underlying error. -/
theorem C10_exists_swallows_errors (fs : SimFS) (path : List String) (fuel : Nat) :
    (∀ e : VfsErr, fs_exists fs path fuel ≠ some (Except.error e))
    ∧ (fs_exists fs path fuel = some (Except.ok true)
        ↔ ∃ v, walkF fs fuel rootW path = some (Except.ok v))
    ∧ (fs_exists fs path fuel = some (Except.ok false)
        ↔ ∃ e, walkF fs fuel rootW path = some (Except.error e)) := by
  unfold fs_exists
  rcases hw : walkF fs fuel rootW path with _ | r
  · exact ⟨fun e h => Option.noConfusion h,
      ⟨fun h => Option.noConfusion h, fun ⟨v, hv⟩ => Option.noConfusion hv⟩,
      ⟨fun h => Option.noConfusion h, fun ⟨e, he⟩ => Option.noConfusion he⟩⟩
  · cases r with
    | ok v =>
      refine ⟨fun e h => by simp at h,
        ⟨fun _ => ⟨v, rfl⟩, fun _ => rfl⟩, ⟨fun h => by simp at h, ?_⟩⟩
      rintro ⟨e, he⟩
      exact Except.noConfusion (Option.some.inj he)
    | error e =>
      refine ⟨fun x h => by simp at h,
        ⟨fun h => by simp at h, ?_⟩, ⟨fun _ => ⟨e, rfl⟩, fun _ => rfl⟩⟩
      rintro ⟨v, hv⟩
      exact Except.noConfusion (Option.some.inj hv)

/-! ## create_file (claim C7) -/

/-- Combined state for the `create_file` path: the walker's view of the
inodes plus the allocator. -/
structure FSState where
  fs : SimFS
  alloc : Ext2Allocator

/-- `Inode::check_valid_insert` (`dir.rs:364-392`): require a directory;
require a final component (`path.last()`, else `InvalidPath`); require
the name absent (`find_single`, else `AlreadyExists`; a duplicate pair
panics); require the name at most 255 bytes (`MAX_FILE_NAME`, else
`TooLongFileName`). -/
def check_valid_insert (s : SimFS) (dir : WInode) (path : List String) :
    Option (Except VfsErr String) :=
  if (s.inodes dir.inode_id).ftype = VfsFileType.Directory then
    match path.getLast? with
    | none => some (Except.error VfsErr.InvalidPath)
    | some filename =>
      match find_single (s.inodes dir.inode_id).entries filename with
      | none => none
      | some (some _) => some (Except.error VfsErr.AlreadyExists)
      | some none =>
        if 255 < filename.length then some (Except.error VfsErr.TooLongFileName)
        else some (Except.ok filename)
  else
    some (Except.error VfsErr.NotADirectory)

/-- `Ext2FileSystem::create_file` (`filesystem.rs:109-113`) composed
with `Inode::insert_entry` and `Inode::insert_file_entry`
(`dir.rs:395-452`): walk from the root to the parent directory (the
path minus its final component — `VfsPath::parent` is not under `src/`;
modelled from the spec, §4.9 "resolves the parent directory"), validate
the insert, allocate an inode, then add the directory entry (the
entry-level effect of `Dir::insert_entry` + `write_to_disk`).  The
allocation step never returns normally (`Ext2BlockGroupDesc::alloc_inode`
is unimplemented), so the final branch is unreachable. -/
def create_file (st : FSState) (fuel : Nat) (path : List String) :
    Option (Except VfsErr (FSState × Nat)) :=
  match walkF st.fs fuel rootW path.dropLast with
  | none => none
  | some (Except.error e) => some (Except.error e)
  | some (Except.ok dir_inode) =>
    match check_valid_insert st.fs dir_inode path with
    | none => none
    | some (Except.error e) => some (Except.error e)
    | some (Except.ok filename) =>
      match Ext2Allocator.alloc_inode st.alloc false with
      | none => none
      | some (Except.error e) => some (Except.error e)
      | some (Except.ok inode_id) =>
        let d := st.fs.inodes dir_inode.inode_id
        let fs2 : SimFS :=
          ⟨fun i =>
            if i = dir_inode.inode_id then
              { d with entries := d.entries ++ [(filename, inode_id)] }
            else st.fs.inodes i⟩
        some (Except.ok (⟨fs2, st.alloc⟩, inode_id))

/-- Concrete state for claim C7: a healthy root directory with one
existing file, and an allocator with a spare inode and spare blocks. -/
def st7 : FSState :=
  { fs := ⟨fun i =>
      if i = 2 then ⟨VfsFileType.Directory, [("a", 5)], true, []⟩
      else ⟨VfsFileType.RegularFile, [], true, []⟩⟩
    alloc := { superblock := ⟨100, 0, 7⟩, blockgroups := [⟨50, 7, 1, []⟩] } }

/-- Claim C7 is false on the code: even with an existing parent
directory, a fresh short name, and free inodes and blocks,
`create_file("/f")` never succeeds — `insert_file_entry` calls the
allocator, whose group-level `alloc_inode` is unimplemented (`todo!()`),
so the call panics instead of creating the file (and a later
`exists("/f")` could only be false).  The claimed `create_file` success
is unreachable for every input. -/
theorem C7_create_file_panics : create_file st7 1 ["f"] = none := rfl

/-! ## read_at (claim C3) -/

/-- The slice copy `dst.copy_from_slice(src)` of `Ext2Inode::read_at`
(`disk_inode.rs:154-163`): write `len` bytes `src srcPos`,
`src (srcPos+1)`, ... into the buffer at positions `dst`, `dst+1`, ... -/
def copy_slice (src : Nat → Nat) : List Nat → Nat → Nat → Nat → List Nat
  | buf, _, _, 0 => buf
  | buf, dst, srcPos, len + 1 =>
    copy_slice src (buf.set dst (src srcPos)) (dst + 1) (srcPos + 1) len

theorem copy_slice_length (src : Nat → Nat) :
    ∀ (len : Nat) (buf : List Nat) (dst srcPos : Nat),
      (copy_slice src buf dst srcPos len).length = buf.length := by
  intro len
  induction len with
  | zero => intro buf dst srcPos; rfl
  | succ n ih =>
    intro buf dst srcPos
    show (copy_slice src (buf.set dst (src srcPos)) (dst + 1) (srcPos + 1) n).length
      = buf.length
    rw [ih, List.length_set]

theorem getD_set_eq (l : List Nat) (i a : Nat) (h : i < l.length) :
    (l.set i a).getD i 0 = a := by
  simp [List.getD_eq_getElem?_getD, List.getElem?_set_self, h]

theorem getD_set_ne (l : List Nat) (i j a : Nat) (h : i ≠ j) :
    (l.set i a).getD j 0 = l.getD j 0 := by
  simp [List.getD_eq_getElem?_getD, List.getElem?_set_ne h]

theorem copy_slice_getD (src : Nat → Nat) :
    ∀ (len : Nat) (buf : List Nat) (dst srcPos j : Nat), j < buf.length →
      (copy_slice src buf dst srcPos len).getD j 0
        = if dst ≤ j ∧ j < dst + len then src (srcPos + (j - dst))
          else buf.getD j 0 := by
  intro len
  induction len with
  | zero =>
    intro buf dst srcPos j hj
    rw [if_neg (by omega)]
    rfl
  | succ n ih =>
    intro buf dst srcPos j hj
    have hlen : (buf.set dst (src srcPos)).length = buf.length := List.length_set _ _ _
    show (copy_slice src (buf.set dst (src srcPos)) (dst + 1) (srcPos + 1) n).getD j 0 = _
    rw [ih (buf.set dst (src srcPos)) (dst + 1) (srcPos + 1) j (by omega)]
    by_cases h1 : dst + 1 ≤ j ∧ j < dst + 1 + n
    · rw [if_pos h1, if_pos (by omega)]
      congr 1
      omega
    · rw [if_neg h1]
      by_cases h2 : j = dst
      · subst h2
        rw [if_pos (by omega), getD_set_eq buf j (src srcPos) hj]
        congr 1
        omega
      · rw [getD_set_ne buf dst j (src srcPos) (fun h => h2 h.symm),
          if_neg (by omega)]

/-- The byte at file offset `p`, as `read_at` reaches it: translate the
file-block index `p / 4096` through `block_nth` and read byte
`p % 4096` of that data block.  (The `none` arm is the translation
panic; it is never reached under the size bound of claim C3.) -/
def file_byte (d : Disk) (ino : Ext2Inode) (p : Nat) : Nat :=
  match Ext2Inode.block_nth d ino (p / block.SIZE) with
  | none => 0
  | some bid => d.bytes bid (p % block.SIZE)

theorem file_byte_eq (d : Disk) (ino : Ext2Inode) (p bid : Nat)
    (h : Ext2Inode.block_nth d ino (p / block.SIZE) = some bid) :
    file_byte d ino p = d.bytes bid (p % block.SIZE) := by
  unfold file_byte
  rw [h]

theorem block_nth_lt_double (d : Disk) (ino : Ext2Inode) (b : Nat)
    (hb : b < Ext2Inode.DOUBLE_BOUND) :
    ∃ bid, Ext2Inode.block_nth d ino b = some bid := by
  unfold Ext2Inode.block_nth
  by_cases h1 : b < Ext2Inode.DIRECT_COUNT
  · rw [if_pos h1]
    exact ⟨_, rfl⟩
  · rw [if_neg h1]
    by_cases h2 : b < Ext2Inode.INDIRECT_BOUND
    · rw [if_pos h2]
      exact ⟨_, rfl⟩
    · rw [if_neg h2, if_pos hb]
      exact ⟨_, rfl⟩

theorem copied_byte_eq (d : Disk) (ino : Ext2Inode) (start k bid : Nat)
    (hbid : Ext2Inode.block_nth d ino (start / block.SIZE) = some bid)
    (hk : start % block.SIZE + k < block.SIZE) :
    d.bytes bid (start % block.SIZE + k) = file_byte d ino (start + k) := by
  have hdiv : (start + k) / block.SIZE = start / block.SIZE := by
    simp only [block.SIZE] at hk ⊢
    omega
  have hmod : (start + k) % block.SIZE = start % block.SIZE + k := by
    simp only [block.SIZE] at hk ⊢
    omega
  rw [file_byte_eq d ino (start + k) bid (by rw [hdiv]; exact hbid), hmod]

/-- The `loop` of `Ext2Inode::read_at` (`disk_inode.rs:148-172`): copy
from the block containing `start` up to the end of that block or `endPos`
(the clipped read end), then either stop (`end_current_block == end`) or
continue at the next block.  The source loop has no own bound; `fuel`
models its iteration budget (each iteration advances `start` by at least
one byte, so `read_at` below passes a sufficient budget), and `none`
covers an exhausted budget or a `block_nth` panic. -/
def read_loop (d : Disk) (ino : Ext2Inode) (endPos : Nat) :
    Nat → Nat → Nat → Nat → List Nat → Option (Nat × List Nat)
  | 0, _, _, _, _ => none
  | fuel + 1, start, start_block, read_size, buf =>
    match Ext2Inode.block_nth d ino start_block with
    | none => none
    | some bid =>
      if min ((start / block.SIZE + 1) * block.SIZE) endPos = endPos then
        some (read_size + (min ((start / block.SIZE + 1) * block.SIZE) endPos - start),
          copy_slice (d.bytes bid) buf read_size (start % block.SIZE)
            (min ((start / block.SIZE + 1) * block.SIZE) endPos - start))
      else
        read_loop d ino endPos fuel
          (min ((start / block.SIZE + 1) * block.SIZE) endPos)
          (start_block + 1)
          (read_size + (min ((start / block.SIZE + 1) * block.SIZE) endPos - start))
          (copy_slice (d.bytes bid) buf read_size (start % block.SIZE)
            (min ((start / block.SIZE + 1) * block.SIZE) endPos - start))

/-- `Ext2Inode::read_at` (`disk_inode.rs:139-174`): evaluate
`self.size()` (whose panic propagates — a regular file with
`size_high ≠ 0` makes `read_at` panic, not return), clip the read end to
`min(offset + buf.len(), size)`, return 0 bytes when nothing remains,
else run the block-wise loop from `start_block = start / block_size`. -/
def Ext2Inode.read_at (d : Disk) (ino : Ext2Inode) (offset : Nat) (buf : List Nat) :
    Option (Nat × List Nat) :=
  match Ext2Inode.size ino with
  | none => none
  | some sz =>
    if min (offset + buf.length) sz ≤ offset then some (0, buf)
    else
      read_loop d ino (min (offset + buf.length) sz)
        (min (offset + buf.length) sz - offset)
        offset (offset / block.SIZE) 0 buf

theorem read_at_eq_of_size (d : Disk) (ino : Ext2Inode) (offset : Nat)
    (buf : List Nat) (sz : Nat) (hsz : Ext2Inode.size ino = some sz) :
    Ext2Inode.read_at d ino offset buf
      = if min (offset + buf.length) sz ≤ offset then some (0, buf)
        else
          read_loop d ino (min (offset + buf.length) sz)
            (min (offset + buf.length) sz - offset)
            offset (offset / block.SIZE) 0 buf := by
  unfold Ext2Inode.read_at
  rw [hsz]

theorem read_loop_succ (d : Disk) (ino : Ext2Inode)
    (endPos n start start_block read_size : Nat) (buf : List Nat) (bid : Nat)
    (hbid : Ext2Inode.block_nth d ino start_block = some bid) :
    read_loop d ino endPos (n + 1) start start_block read_size buf
      = if min ((start / block.SIZE + 1) * block.SIZE) endPos = endPos then
          some (read_size + (min ((start / block.SIZE + 1) * block.SIZE) endPos - start),
            copy_slice (d.bytes bid) buf read_size (start % block.SIZE)
              (min ((start / block.SIZE + 1) * block.SIZE) endPos - start))
        else
          read_loop d ino endPos n
            (min ((start / block.SIZE + 1) * block.SIZE) endPos)
            (start_block + 1)
            (read_size + (min ((start / block.SIZE + 1) * block.SIZE) endPos - start))
            (copy_slice (d.bytes bid) buf read_size (start % block.SIZE)
              (min ((start / block.SIZE + 1) * block.SIZE) endPos - start)) := by
  rw [read_loop, hbid]

theorem read_loop_spec (d : Disk) (ino : Ext2Inode) (endPos : Nat)
    (hend : endPos ≤ 4294967295) :
    ∀ (fuel start read_size : Nat) (buf : List Nat),
      start < endPos →
      endPos - start ≤ fuel →
      read_size + (endPos - start) ≤ buf.length →
      ∃ out,
        read_loop d ino endPos fuel start (start / block.SIZE) read_size buf
          = some (read_size + (endPos - start), out)
        ∧ out.length = buf.length
        ∧ ∀ j, j < buf.length →
            out.getD j 0
              = if read_size ≤ j ∧ j < read_size + (endPos - start)
                then file_byte d ino (start + (j - read_size))
                else buf.getD j 0 := by
  intro fuel
  induction fuel with
  | zero =>
    intro start read_size buf h1 h2 _
    exact absurd h2 (by omega)
  | succ n ih =>
    intro start read_size buf h1 h2 h3
    have hq : start / block.SIZE < Ext2Inode.DOUBLE_BOUND := by
      simp only [block.SIZE, Ext2Inode.DOUBLE_BOUND, Ext2Inode.INDIRECT_BOUND,
        Ext2Inode.DIRECT_COUNT, Ext2Inode.INDIRECT_COUNT, Ext2Inode.DOUBLE_COUNT]
      omega
    obtain ⟨bid, hbid⟩ := block_nth_lt_double d ino (start / block.SIZE) hq
    rw [read_loop_succ d ino endPos n start (start / block.SIZE) read_size buf bid hbid]
    simp only [block.SIZE] at ih hbid ⊢
    by_cases hecb : min ((start / 4096 + 1) * 4096) endPos = endPos
    · rw [if_pos hecb, hecb]
      refine ⟨copy_slice (d.bytes bid) buf read_size (start % 4096) (endPos - start),
        rfl, copy_slice_length _ _ _ _ _, ?_⟩
      intro j hj
      rw [copy_slice_getD (d.bytes bid) (endPos - start) buf read_size (start % 4096) j hj]
      by_cases hrange : read_size ≤ j ∧ j < read_size + (endPos - start)
      · rw [if_pos hrange, if_pos hrange]
        have hk : start % 4096 + (j - read_size) < 4096 := by omega
        exact copied_byte_eq d ino start (j - read_size) bid hbid hk
      · rw [if_neg hrange, if_neg hrange]
    · rw [if_neg hecb]
      have hlt : min ((start / 4096 + 1) * 4096) endPos < endPos := by omega
      have hstart : start < min ((start / 4096 + 1) * 4096) endPos := by omega
      have hsb : min ((start / 4096 + 1) * 4096) endPos / 4096 = start / 4096 + 1 := by
        omega
      obtain ⟨out, hloop, hlen, hget⟩ :=
        ih (min ((start / 4096 + 1) * 4096) endPos)
          (read_size + (min ((start / 4096 + 1) * 4096) endPos - start))
          (copy_slice (d.bytes bid) buf read_size (start % 4096)
            (min ((start / 4096 + 1) * 4096) endPos - start))
          hlt (by omega)
          (by rw [copy_slice_length]; omega)
      rw [hsb] at hloop
      refine ⟨out, ?_, ?_, ?_⟩
      · rw [hloop]
        have heq : read_size + (min ((start / 4096 + 1) * 4096) endPos - start)
            + (endPos - min ((start / 4096 + 1) * 4096) endPos)
            = read_size + (endPos - start) := by omega
        rw [heq]
      · rw [hlen, copy_slice_length]
      · intro j hj
        have hjc : j < (copy_slice (d.bytes bid) buf read_size (start % 4096)
            (min ((start / 4096 + 1) * 4096) endPos - start)).length := by
          rw [copy_slice_length]
          exact hj
        have hg := hget j hjc
        rw [hg]
        by_cases hA : read_size + (min ((start / 4096 + 1) * 4096) endPos - start) ≤ j
            ∧ j < read_size + (min ((start / 4096 + 1) * 4096) endPos - start)
              + (endPos - min ((start / 4096 + 1) * 4096) endPos)
        · rw [if_pos hA, if_pos (by omega)]
          congr 1
          omega
        · rw [if_neg hA,
            copy_slice_getD (d.bytes bid) _ buf read_size (start % 4096) j hj]
          by_cases hB : read_size ≤ j
              ∧ j < read_size + (min ((start / 4096 + 1) * 4096) endPos - start)
          · rw [if_pos hB, if_pos (by omega)]
            have hk : start % 4096 + (j - read_size) < 4096 := by omega
            exact copied_byte_eq d ino start (j - read_size) bid hbid hk
          · rw [if_neg hB, if_neg (by omega)]

/-- Claim C3: `read_at(offset, buf)` is clipped to `[0, size)`: whenever
`self.size()` returns normally (`size_high = 0` for a regular file, so
the entry assert passes and the result is `size_low`, a `u32`), it
returns 0 bytes when `offset ≥ size`, otherwise it returns
`min(buf.len(), size − offset)` and that prefix of the buffer holds
exactly the file bytes starting at `offset`, each fetched block-wise
through `block_nth` (which never reaches its panic arm under the `u32`
size bound). -/
theorem C3_read_at_clipped (d : Disk) (ino : Ext2Inode) (offset : Nat)
    (buf : List Nat) (sz : Nat) (hsz : Ext2Inode.size ino = some sz)
    (hsz32 : sz ≤ 4294967295) :
    ∃ out,
      Ext2Inode.read_at d ino offset buf
        = some (if sz ≤ offset then 0 else min buf.length (sz - offset), out)
      ∧ out.length = buf.length
      ∧ ∀ j, j < (if sz ≤ offset then 0 else min buf.length (sz - offset)) →
          out.getD j 0 = file_byte d ino (offset + j) := by
  rw [read_at_eq_of_size d ino offset buf sz hsz]
  by_cases h0 : min (offset + buf.length) sz ≤ offset
  · have hc : (if sz ≤ offset then 0 else min buf.length (sz - offset)) = 0 := by
      split_ifs with h
      · rfl
      · omega
    rw [if_pos h0, hc]
    exact ⟨buf, rfl, rfl, fun j hj => absurd hj (by omega)⟩
  · have hofs : offset < min (offset + buf.length) sz := by omega
    have hc : (if sz ≤ offset then 0 else min buf.length (sz - offset))
        = min (offset + buf.length) sz - offset := by
      split_ifs with h
      · omega
      · omega
    obtain ⟨out, hloop, hlen, hget⟩ :=
      read_loop_spec d ino (min (offset + buf.length) sz)
        (by omega)
        (min (offset + buf.length) sz - offset)
        offset 0 buf hofs (by omega) (by omega)
    rw [if_neg h0, hc]
    refine ⟨out, by rw [hloop, Nat.zero_add], hlen, ?_⟩
    intro j hj
    have hjb : j < buf.length := by omega
    have := hget j hjb
    rw [if_pos (by omega)] at this
    rw [this, Nat.sub_zero]

/-- Concrete device and inode for the C3 witness: block `b` holds byte
`b + i` at offset `i`; the file is 5 bytes long in data block 70. -/
def d3 : Disk := ⟨fun _ _ => 0, fun b i => b + i⟩

/-- Concrete inode for the C3 witness: a regular file
(`type_perm = 0x8000`) with `size_high = 0`, so `size()` returns 5. -/
def ino3 : Ext2Inode :=
  { type_perm := 0x8000, uid := 0, size_low := 5, gid := 0, hard_links := 1,
    sectors_count := 0,
    direct_pointer := [70, 0, 0, 0, 0, 0, 0, 0, 0, 0, 0, 0],
    indirect_pointer := 0, doubly_indirect := 0, triply_indirect := 0,
    size_high := 0 }

/-- Claim C3 witness: reading 3 bytes at offset 1 of the 5-byte file
returns 3 bytes, the bytes of the file at offsets 1..3. -/
theorem C3_read_at_witness :
    ∃ out,
      Ext2Inode.read_at d3 ino3 1 [9, 9, 9]
        = some (if 5 ≤ 1 then 0 else min ([9, 9, 9] : List Nat).length (5 - 1), out)
      ∧ out.length = ([9, 9, 9] : List Nat).length
      ∧ ∀ j, j < (if 5 ≤ 1 then 0 else min ([9, 9, 9] : List Nat).length (5 - 1)) →
          out.getD j 0 = file_byte d3 ino3 (1 + j) :=
  C3_read_at_clipped d3 ino3 1 [9, 9, 9] 5 (by decide) (by decide)

end Ext2fs
